import Mathlib

/-!
# Verification of lyz-code/repository-pattern

Shallow embedding of the repository-pattern library (entity model,
relationship model, and the three storage backends: the in-memory
`FakeRepository`, the relational `PypikaRepository` over SQLite, and the
document-store `TinyDBRepository`), together with proofs settling the
frozen claims about the natural-language specification.

Conventions of the embedding:
* Entity identifiers are modelled as `Int` and entity payloads as `Nat`.
* Fallible operations (`get`, `delete`, `all`, `last`, constructor
  validation) return `Except` values; `.error` stands for the raised
  exception (`EntityNotFoundError` or pydantic's `ValidationError`).
* Python dictionaries are modelled as insertion-ordered association
  lists, matching CPython's documented iteration order.
-/

namespace RepoPattern

/-! ## Relationship model (src/repository_pattern/model/relationships.py)

Pydantic validators with `pre=True, always=True` run on the supplied
value, or on the field's declared default when the argument is not
supplied.  An unsupplied argument is modelled as `none`. -/

/-- `EntityExtension.set_source_id_if_none` (relationships.py:61-71).
The field default is `"id_"`; any supplied value different from `"id_"`
raises a `ValueError` (surfaced by pydantic as a validation error). -/
def extensionValidateSourceId (supplied : Option String) : Except String String :=
  let sourceId := supplied.getD "id_"
  if sourceId = "id_" then .ok sourceId
  else .error "source_id must be 'id_' in this type of relationship"

/-- `EntityExtension.destination_id_must_be_id_` (relationships.py:73-81). -/
def extensionValidateDestinationId (supplied : Option String) : Except String String :=
  let destinationId := supplied.getD "id_"
  if destinationId = "id_" then .ok destinationId
  else .error "destination_id must be 'id_' in this type of relationship"

/-- Construction of an `EntityExtension` (relationships.py:49-81): both id
validators must pass; the resolved `(source_id, destination_id)` pair is
returned. -/
def entityExtensionMake (sourceId destinationId : Option String) :
    Except String (String × String) :=
  match extensionValidateSourceId sourceId with
  | .error e => .error e
  | .ok s =>
    match extensionValidateDestinationId destinationId with
    | .error e => .error e
    | .ok d => .ok (s, d)

/-- `EntityComposition.set_source_id_if_none` (relationships.py:90-100):
an unsupplied source_id defaults to `<destination class name>_id`. -/
def compositionSourceId (destinationClassName : String) (supplied : Option String) : String :=
  match supplied with
  | none => destinationClassName ++ "_id"
  | some v => v

/-- `EntityComposition.set_destination_id_if_none` (relationships.py:102-108). -/
def compositionDestinationId (supplied : Option String) : String :=
  supplied.getD "id_"

/-- `EntityComposition.set_source_attribute_if_none` (relationships.py:110-122):
defaults to the destination class name (singular). -/
def compositionSourceAttribute (destinationClassName : String) (supplied : Option String) :
    String :=
  supplied.getD destinationClassName

/-- `EntityMultipleComposition.set_source_id_if_none` (relationships.py:131-137):
an unsupplied source_id defaults to `"id_"` (not to `<destination>_id`). -/
def multipleCompositionSourceId (supplied : Option String) : String :=
  supplied.getD "id_"

/-- `EntityMultipleComposition.set_destination_id_if_none` (relationships.py:139-145). -/
def multipleCompositionDestinationId (supplied : Option String) : String :=
  supplied.getD "id_"

/-- `EntityMultipleComposition.set_source_attribute_if_none`
(relationships.py:147-159): defaults to the destination class name with a
trailing `s` (plural). -/
def multipleCompositionSourceAttribute (destinationClassName : String)
    (supplied : Option String) : String :=
  supplied.getD (destinationClassName ++ "s")

/-! ## Column projection (src/repository_pattern/adapters/pypika.py:804-877)

A pypika select column carries the table it comes from, the column name,
and an alias; `_delete_select_column_attribute` compares only the table
and the name, so the alias is irrelevant to the embedding. -/

structure Column where
  table : String
  name : String
deriving DecidableEq, Repr

/-- The comparison performed at pypika.py:870-873. -/
def matchesColumn (table attrName : String) (c : Column) : Bool :=
  c.table == table && c.name == attrName

/-- `_delete_select_column_attribute` (pypika.py:846-876): scan the column
list with `for column_id in range(len(columns) - 1)`, pop the first
matching column and stop.  The loop bound excludes the LAST index, so a
match sitting in the last position is never removed; this is captured by
the singleton case returning the list unchanged. -/
def deleteSelectColumnAttribute (table attrName : String) :
    List Column → List Column
  | [] => []
  | [c] => [c]
  | c :: rest =>
    if matchesColumn table attrName c then rest
    else c :: deleteSelectColumnAttribute table attrName rest

/-! ## Multiple-composition join table
(src/repository_pattern/adapters/pypika.py:171-246)

The join table `<source>_<destination>_relationship` is modelled as the
insertion-ordered list of its `(source_id, destination_id)` rows.  The
schema declares `UNIQUE(source_id, destination_id)`, and the insert uses
`ON CONFLICT DO NOTHING` (mode "pass" of `_upsert`), so an insert of an
already-present pair is a no-op. -/

abbrev JoinRow := Int × Int

/-- The `existing_entity_ids` query (pypika.py:204-213): destination ids
of the rows of the join table whose source column equals the entity id,
in table order. -/
def existingEntityIds (rows : List JoinRow) (entityId : Int) : List Int :=
  (rows.filter (fun r => r.1 == entityId)).map (·.2)

/-- The loop over `populated_entities` (pypika.py:217-223): for each
referenced id, a `(entity_id, referenced_id)` link value is recorded when
the id is not in the current `existing_entity_ids` list, and the id is
then removed from that list (`suppress(ValueError)` makes the removal a
no-op when absent).  Returns the leftover `existing_entity_ids` (the
stale ids) and the accumulated insert values. -/
def reconcileLinks (existing : List Int) (entityId : Int) :
    List Int → List JoinRow → List Int × List JoinRow
  | [], values => (existing, values)
  | refId :: rest, values =>
    let values' := if existing.contains refId then values else values ++ [(entityId, refId)]
    reconcileLinks (existing.erase refId) entityId rest values'

/-- Insert the link values with `ON CONFLICT DO NOTHING` (pypika.py:224,
pypika.py:795-801): each value row is appended unless the pair already
exists (the join table's `UNIQUE(source_id, destination_id)` constraint). -/
def insertLinksPass (rows : List JoinRow) (values : List JoinRow) : List JoinRow :=
  values.foldl (fun acc v => if acc.contains v then acc else acc ++ [v]) rows

/-- The stale-link delete query (pypika.py:229-244): `DELETE FROM
<join_table> WHERE destination_id = s1 OR destination_id = s2 OR ...` —
the criterion mentions ONLY the destination column, never the source
column of the entity being added. -/
def deleteStaleLinks (rows : List JoinRow) (stale : List Int) : List JoinRow :=
  rows.filter (fun r => !stale.contains r.2)

/-- Effect of `_add_multiple_composition` on the join table
(pypika.py:171-246) for an entity with id `entityId` whose mapped
attribute holds `refIds` (`none` models an unpopulated attribute, for
which the insert phase is skipped entirely).  The two post-queries run in
order: the `ON CONFLICT DO NOTHING` insert, then — only when stale ids
remain — the destination-only delete. -/
def addMultipleCompositionJoin (rows : List JoinRow) (entityId : Int)
    (refIds : Option (List Int)) : List JoinRow :=
  let existing := existingEntityIds rows entityId
  match refIds with
  | none =>
    if existing.length > 0 then deleteStaleLinks rows existing else rows
  | some ids =>
    let (stale, values) := reconcileLinks existing entityId ids []
    let rows' := insertLinksPass rows values
    if stale.length > 0 then deleteStaleLinks rows' stale else rows'

/-- The stale ids computed by one `_add_multiple_composition` call: the
previously linked destination ids that are no longer referenced. -/
def staleIdsOf (rows : List JoinRow) (entityId : Int) (refIds : List Int) : List Int :=
  (reconcileLinks (existingEntityIds rows entityId) entityId refIds []).1

/-- Destination ids currently linked to a given source id, in table
order (the committed view of the relationship for that source). -/
def linksOf (rows : List JoinRow) (sourceId : Int) : List Int :=
  existingEntityIds rows sourceId

/-! ## Mapper and relationship dispatch
(src/repository_pattern/model/relationships.py:17-46,162-179)

Entity classes are identified by their lowercase class name, exactly the
value `Entity.class_name()` returns and the value the `Mapper` and the
relational backend compare.  The three relationship variants are a
closed set; `is_(T)` is the `isinstance` dispatch on that set. -/

inductive RelKind where
  | extension
  | composition
  | multipleComposition
deriving DecidableEq, Repr

structure Rel where
  kind : RelKind
  sourceName : String
  destinationName : String
deriving DecidableEq, Repr

/-- `Mapper.get_relationships` (relationships.py:167-179): keep the
relationships whose source or destination class name equals the entity's
class name, preserving order. -/
def getRelationships (mapper : List Rel) (className : String) : List Rel :=
  mapper.filter (fun r => className == r.sourceName || className == r.destinationName)

/-- `Relationship.is_source` (relationships.py:36-38) applied to an
entity class: classes are compared by identity, modelled as class-name
equality (distinct entity classes have distinct lowercase names). -/
def relIsSource (r : Rel) (className : String) : Bool :=
  className == r.sourceName

/-! ## Relational backend: presence-level database
(src/repository_pattern/adapters/pypika.py)

The claims settled against this backend concern which entities `get`,
`all` and `delete` can find and when they raise `EntityNotFoundError`,
not the attribute values of the returned entities.  A table is therefore
embedded as the insertion-ordered list of the `id_` values of its rows:
SQLite returns the rows of an unordered `SELECT` in rowid order, i.e. in
insertion order (`id_ INT PRIMARY KEY` in the schema is not a rowid
alias), and `ON CONFLICT(id_) DO UPDATE` keeps the conflicting row's
rowid, hence its scan position. -/

abbrev Database := List (String × List Int)

/-- Ids stored in a table, in rowid (insertion) order. -/
def tableIds (db : Database) (table : String) : List Int :=
  match db.find? (fun t => t.1 == table) with
  | some t => t.2
  | none => []

/-- `_upsert` in mode "update" executed against a table (pypika.py:763-801,
248-260): `INSERT ... ON CONFLICT(id_) DO UPDATE` leaves the row in place
when the id already exists and appends a fresh row otherwise. -/
def upsertRow (db : Database) (table : String) (id : Int) : Database :=
  match db with
  | [] => [(table, [id])]
  | t :: rest =>
    if t.1 == table then
      (t.1, if t.2.contains id then t.2 else t.2 ++ [id]) :: rest
    else t :: upsertRow rest table id

/-- `DELETE FROM table WHERE id_ = id` (pypika.py:665-666). -/
def deleteRow (db : Database) (table : String) (id : Int) : Database :=
  db.map (fun t => if t.1 == table then (t.1, t.2.filter (fun i => i != id)) else t)

/-- The relationship loop of `_build_get_query` (pypika.py:309-329).
For a relationship in which the queried model is NOT the source:
an `EntityExtension` raises `EntityNotFoundError` immediately
(pypika.py:311-315), any other variant is skipped.  For a relationship
in which it IS the source: an `EntityExtension` adds an inner join on the
destination table (`join(...).using("id_")`, pypika.py:354), and both
composition variants add left joins, which never drop the base row.  The
loop's observable outcome is therefore either the raise or the list of
inner-joined tables constraining row presence. -/
def buildGetQueryJoins (className : String) : List Rel → Except Unit (List String)
  | [] => .ok []
  | r :: rest =>
    if !relIsSource r className then
      if r.kind = RelKind.extension then .error ()
      else buildGetQueryJoins className rest
    else
      match buildGetQueryJoins className rest with
      | .error e => .error e
      | .ok tables =>
        .ok (if r.kind = RelKind.extension then r.destinationName :: tables else tables)

/-- `PypikaRepository.get` at presence level (pypika.py:262-289): build
the get query (possibly raising on an extension destination), execute it
against the database the connection currently sees, and raise
`EntityNotFoundError` when no row comes back.  `.ok ()` stands for a
successfully returned entity. -/
def pypikaGetOk (mapper : List Rel) (db : Database) (className : String) (id : Int) :
    Except Unit Unit :=
  match buildGetQueryJoins className (getRelationships mapper className) with
  | .error _ => .error ()
  | .ok innerTables =>
    if (tableIds db className).contains id
        && innerTables.all (fun t => (tableIds db t).contains id) then
      .ok ()
    else .error ()

/-- State of a `PypikaRepository`: one SQLite connection whose cursor has
an implicit open transaction.  `committedDb` is the content of the
database file (what a second connection reads); `currentDb` is what the
repository's own cursor reads, including its own uncommitted writes
(SQLite statements of one connection see that connection's uncommitted
changes). -/
structure PypikaRepo where
  mapper : List Rel
  committedDb : Database
  currentDb : Database
deriving Repr

/-- `PypikaRepository.add` (pypika.py:68-77) for an entity whose class
has no relationship in the mapper: `_clean_relationships`' loop body
never runs and `post_queries` is empty (pypika.py:79-110), so `add`
reduces to the `_add_entity` upsert (pypika.py:248-260) executed on the
connection — touching only the current view, never the committed file. -/
def pypikaAddPlain (st : PypikaRepo) (className : String) (id : Int) : PypikaRepo :=
  { st with currentDb := upsertRow st.currentDb className id }

/-- `PypikaRepository.get` as invoked on the repository itself: the query
runs on the repository's own cursor, which sees `currentDb`. -/
def pypikaRepoGet (st : PypikaRepo) (className : String) (id : Int) : Except Unit Unit :=
  pypikaGetOk st.mapper st.currentDb className id

/-- `PypikaRepository.commit` (pypika.py:691-693): `connection.commit()`
publishes the connection's view into the database file. -/
def pypikaCommit (st : PypikaRepo) : PypikaRepo :=
  { st with committedDb := st.currentDb }

/-- `PypikaRepository.delete` (pypika.py:649-666): `get` first; on
`EntityNotFoundError` re-raise, otherwise execute the delete-by-id. -/
def pypikaDelete (st : PypikaRepo) (className : String) (id : Int) :
    Except Unit PypikaRepo :=
  match pypikaRepoGet st className id with
  | .error _ => .error ()
  | .ok _ => .ok { st with currentDb := deleteRow st.currentDb className id }

/-- `PypikaRepository.all` (pypika.py:668-689): `SELECT * FROM table`
with no ORDER BY, executed on the repository's cursor; raises
`EntityNotFoundError` when no row comes back.  The returned ids are in
rowid (insertion) order. -/
def pypikaAll (st : PypikaRepo) (className : String) : Except Unit (List Int) :=
  let ids := tableIds st.currentDb className
  if ids.length == 0 then .error () else .ok ids

/-! ## In-memory backend (src/repository_pattern/adapters/fake.py)

`FakeRepositoryDB` is a two-level dict `entity type → (id → entity)`.
Entities are embedded as `(id, payload)` pairs and the two dict levels as
insertion-ordered association lists; the `deepcopy` of copy-on-first-write
is plain value copying here. -/

abbrev FEntity := Int × Nat

abbrev FakeDB := List (String × List FEntity)

/-- `d[k] = v` on a Python dict: replace in place or append. -/
def dictSet (d : FakeDB) (key : String) (value : List FEntity) : FakeDB :=
  match d with
  | [] => [(key, value)]
  | kv :: rest =>
    if kv.1 == key then (key, value) :: rest else kv :: dictSet rest key value

/-- `d[k]` lookup on a Python dict (`none` is the `KeyError` case). -/
def dictFind (d : FakeDB) (key : String) : Option (List FEntity) :=
  (d.find? (fun kv => kv.1 == key)).map (·.2)

/-- Inner-dict assignment `inner[id] = entity`. -/
def innerSet (inner : List FEntity) (e : FEntity) : List FEntity :=
  match inner with
  | [] => [e]
  | x :: rest => if x.1 == e.1 then e :: rest else x :: innerSet rest e

/-- Inner-dict `inner.pop(id, None)`: remove the entry when present,
silently keep the dict unchanged otherwise (fake.py:62). -/
def innerPop (inner : List FEntity) (id : Int) : List FEntity :=
  inner.filter (fun x => x.1 != id)

structure FakeRepo where
  entities : FakeDB
  newEntities : FakeDB
deriving DecidableEq, Repr

/-- `FakeRepository.add` (fake.py:35-48): copy the committed map into the
staging map on its first use, create the entity-type key if missing, and
store the entity under its id — the committed `entities` map is never
touched. -/
def fakeAdd (repo : FakeRepo) (className : String) (e : FEntity) : FakeRepo :=
  let staged := if repo.newEntities == [] then repo.entities else repo.newEntities
  let inner := (dictFind staged className).getD []
  { repo with newEntities := dictSet staged className (innerSet inner e) }

/-- `FakeRepository.get` (fake.py:68-89): read the COMMITTED map only; a
`KeyError` on either dict level becomes `EntityNotFoundError`. -/
def fakeGet (repo : FakeRepo) (className : String) (id : Int) : Except Unit FEntity :=
  match dictFind repo.entities className with
  | none => .error ()
  | some inner =>
    match inner.find? (fun x => x.1 == id) with
    | none => .error ()
    | some e => .ok e

/-- `FakeRepository.delete` (fake.py:50-66): copy-on-first-write, then
`new_entities[type(entity)].pop(entity.ID, None)`.  Only the OUTER lookup
can raise `KeyError` (hence `EntityNotFoundError`); the `pop` with a
default never does, so a missing id inside an existing type key is a
silent no-op. -/
def fakeDelete (repo : FakeRepo) (className : String) (id : Int) :
    Except Unit FakeRepo :=
  let staged := if repo.newEntities == [] then repo.entities else repo.newEntities
  match dictFind staged className with
  | none => .error ()
  | some inner =>
    .ok { repo with newEntities := dictSet staged className (innerPop inner id) }

/-- `FakeRepository.all` (fake.py:91-110): `sorted(...)` over the values
of `entities[entity_model]` — sorted by id via `Entity.__lt__`; a missing
TYPE key raises `KeyError` → `EntityNotFoundError`, but an empty inner
dict sorts to the empty list and is returned as such. -/
def fakeAll (repo : FakeRepo) (className : String) : Except Unit (List FEntity) :=
  match dictFind repo.entities className with
  | none => .error ()
  | some inner => .ok (inner.insertionSort (fun a b => a.1 ≤ b.1))

/-- `FakeRepository.commit` (fake.py:112-116): copy every staged
type-level entry over the committed map, then clear staging. -/
def fakeCommit (repo : FakeRepo) : FakeRepo :=
  { entities := repo.newEntities.foldl (fun acc kv => dictSet acc kv.1 kv.2) repo.entities
    newEntities := [] }

/-! ## Document-store backend (src/repository_orm/adapters/tinydb.py)

A stored document is the entity's fields plus the injected
`model_type_` discriminator; both documents and entities are embedded as
`TEntity` (the discriminator is the entity's lowercase model name, so
stripping or injecting it is the identity here).  The TinyDB collection
is the insertion-ordered list of documents; `upsert` replaces a matching
document in place and appends otherwise. -/

structure TEntity where
  model : String
  id_ : Int
  data : Nat
deriving DecidableEq, Repr

structure TinyRepo where
  db : List TEntity
  stagedAdd : List TEntity
  stagedRemove : List TEntity
deriving DecidableEq, Repr

/-- Documents of one entity type, in insertion order
(`db_.search(Query().model_type_ == name)`, tinydb.py:130-132). -/
def committedOf (repo : TinyRepo) (model : String) : List TEntity :=
  repo.db.filter (fun d => d.model == model)

/-- Python's `max` over entities: `Entity.__gt__` compares by `id_`
(repository_orm/model.py:27-37), and `max` keeps the earliest of equal
elements. -/
def pyMax (l : List TEntity) : Option TEntity :=
  match l with
  | [] => none
  | h :: t => some (t.foldl (fun best x => if x.id_ > best.id_ then x else best) h)

/-- Modelled from the spec: `AbstractRepository._next_id` lives in
`repository_orm/adapters/abstract.py`, which is not under src/.  Per the
spec ("auto-assign id ... at add-time"), the next id is one past the
largest committed id of the entity's type, starting at 0. -/
def nextId (repo : TinyRepo) (model : String) : Int :=
  match pyMax (committedOf repo model) with
  | none => 0
  | some e => e.id_ + 1

/-- `TinyDBRepository.add` (tinydb.py:50-58): replace a negative
(sentinel) id by the next auto-increment id, then stage the entity in the
add-list; the committed collection is untouched. -/
def tinyAdd (repo : TinyRepo) (e : TEntity) : TinyRepo :=
  let e' := if e.id_ < 0 then { e with id_ := nextId repo e.model } else e
  { repo with stagedAdd := repo.stagedAdd ++ [e'] }

/-- `TinyDBRepository.get` (tinydb.py:74-98): first committed document
matching id and discriminator; `IndexError` on an empty result becomes
`EntityNotFoundError`. -/
def tinyGet (repo : TinyRepo) (model : String) (id : Int) : Except Unit TEntity :=
  match (repo.db.filter (fun d => d.id_ == id && d.model == model)).head? with
  | none => .error ()
  | some d => .ok d

/-- `TinyDBRepository.delete` (tinydb.py:60-72): verify existence via
`get` (re-raising `EntityNotFoundError`), then stage in the remove-list. -/
def tinyDelete (repo : TinyRepo) (e : TEntity) : Except Unit TinyRepo :=
  match tinyGet repo e.model e.id_ with
  | .error _ => .error ()
  | .ok _ => .ok { repo with stagedRemove := repo.stagedRemove ++ [e] }

/-- `TinyDBRepository.all` (tinydb.py:117-141): every committed document
of the type, in collection (insertion) order — no sorting; raises
`EntityNotFoundError` when there are none. -/
def tinyAll (repo : TinyRepo) (model : String) : Except Unit (List TEntity) :=
  let entities := committedOf repo model
  if entities.length == 0 then .error () else .ok entities

/-- TinyDB `upsert` on `(model_type_, id_)` (tinydb.py:160-165): replace
the matching document in place, or append when there is none. -/
def tinyUpsert (db : List TEntity) (e : TEntity) : List TEntity :=
  if db.any (fun d => d.model == e.model && d.id_ == e.id_) then
    db.map (fun d => if d.model == e.model && d.id_ == e.id_ then e else d)
  else db ++ [e]

/-- `TinyDBRepository.commit` (tinydb.py:158-173): upsert every staged
add in order, then remove every staged removal, then clear both lists. -/
def tinyCommit (repo : TinyRepo) : TinyRepo :=
  let db1 := repo.stagedAdd.foldl tinyUpsert repo.db
  let db2 := repo.stagedRemove.foldl
    (fun acc e => acc.filter (fun d => !(d.model == e.model && d.id_ == e.id_))) db1
  { db := db2, stagedAdd := [], stagedRemove := [] }

/-- Modelled from the spec: `AbstractRepository.last` lives in
`repository_orm/adapters/abstract.py`, which is not under src/.  Per the
spec ("return the maximum-id entity") it is the maximum of
`all(entity_model)`, propagating `all`'s `EntityNotFoundError` when the
type has no committed entity. -/
def superLast (repo : TinyRepo) (model : String) : Except Unit TEntity :=
  match tinyAll repo model with
  | .error e => .error e
  | .ok entities =>
    match pyMax entities with
    | none => .error ()
    | some e => .ok e

/-- `TinyDBRepository.last` (tinydb.py:220-255).  `index` is the
`committed_only` flag.  Note that the staged fallback `max(self.staged["add"])`
ranges over ALL staged entities, with no filter on the entity type. -/
def tinyLast (repo : TinyRepo) (model : String) (index : Bool) : Except Unit TEntity :=
  match superLast repo model with
  | .error _ =>
    if !index then
      match pyMax repo.stagedAdd with
      | some staged => .ok staged
      | none => .error ()
    else .error ()
  | .ok lastIndexEntity =>
    if index then .ok lastIndexEntity
    else
      match pyMax repo.stagedAdd with
      | none => .ok lastIndexEntity
      | some lastStaged =>
        .ok (if lastStaged.id_ > lastIndexEntity.id_ then lastStaged else lastIndexEntity)

/-! ## Supporting lemmas -/

theorem deleteSelectColumnAttribute_of_no_match_before_last
    (table attrName : String) (cs : List Column)
    (hothers : ∀ c' ∈ cs.dropLast, matchesColumn table attrName c' = false) :
    deleteSelectColumnAttribute table attrName cs = cs := by
  induction cs with
  | nil => rfl
  | cons x rest ih =>
    cases rest with
    | nil => rfl
    | cons y t =>
      have hx : matchesColumn table attrName x = false := by
        apply hothers
        simp [List.dropLast]
      have ih' : deleteSelectColumnAttribute table attrName (y :: t) = y :: t := by
        apply ih
        intro c' hc'
        apply hothers
        simp only [List.dropLast] at hc' ⊢
        exact List.mem_cons_of_mem x hc'
      simp [deleteSelectColumnAttribute, hx, ih']

theorem intList_contains_eq (l : List Int) (a : Int) : l.contains a = decide (a ∈ l) :=
  List.elem_eq_mem a l

theorem mem_existingEntityIds (rows : List JoinRow) (s d : Int) :
    d ∈ existingEntityIds rows s ↔ (s, d) ∈ rows := by
  simp only [existingEntityIds, List.mem_map, List.mem_filter]
  constructor
  · rintro ⟨⟨a, b⟩, ⟨hmem, hfst⟩, hsnd⟩
    simp only [beq_iff_eq] at hfst
    cases hsnd
    cases hfst
    exact hmem
  · intro h
    exact ⟨(s, d), ⟨h, by simp⟩, rfl⟩

theorem reconcileLinks_stale (s : Int) (refIds : List Int) :
    ∀ (existing : List Int) (values : List JoinRow), existing.Nodup →
      (reconcileLinks existing s refIds values).1
        = existing.filter (fun d => !refIds.contains d) := by
  induction refIds with
  | nil =>
    intro existing values _
    simp [reconcileLinks]
  | cons refId rest ih =>
    intro existing values hE
    simp only [reconcileLinks]
    rw [ih _ _ (hE.erase refId), List.Nodup.erase_eq_filter hE refId, List.filter_filter]
    apply List.filter_congr
    intro d _
    by_cases h1 : d = refId
    · subst h1
      simp [intList_contains_eq]
    · simp [intList_contains_eq, List.mem_cons, h1]

theorem reconcileLinks_values (s : Int) (refIds : List Int) :
    ∀ (existing : List Int) (values : List JoinRow), existing.Nodup → refIds.Nodup →
      (reconcileLinks existing s refIds values).2
        = values ++ (refIds.filter (fun d => !existing.contains d)).map (fun d => (s, d)) := by
  induction refIds with
  | nil =>
    intro existing values _ _
    simp [reconcileLinks]
  | cons refId rest ih =>
    intro existing values hE hR
    have href : refId ∉ rest := (List.nodup_cons.mp hR).1
    have hR' : rest.Nodup := hR.of_cons
    have hrest : rest.filter (fun d => !(existing.erase refId).contains d)
        = rest.filter (fun d => !existing.contains d) := by
      apply List.filter_congr
      intro d hd
      have hdne : d ≠ refId := fun h => href (h ▸ hd)
      have : d ∈ existing.erase refId ↔ d ∈ existing := by
        rw [List.Nodup.mem_erase_iff hE]
        simp [hdne]
      simp [intList_contains_eq, this]
    by_cases hc : refId ∈ existing
    · have hcb : existing.contains refId = true := by simp [intList_contains_eq, hc]
      simp only [reconcileLinks, hcb, if_pos]
      rw [ih _ _ (hE.erase refId) hR', hrest, List.filter_cons]
      simp [hcb, hc]
    · have hcb : existing.contains refId = false := by simp [intList_contains_eq, hc]
      simp only [reconcileLinks, hcb, Bool.false_eq_true, if_false]
      rw [List.erase_of_not_mem hc] at *
      rw [ih _ _ hE hR', List.filter_cons]
      simp [hcb, hc, List.append_assoc]

theorem insertLinksPass_eq_append (values : List JoinRow) :
    ∀ rows : List JoinRow, (∀ v ∈ values, v ∉ rows) → values.Nodup →
      insertLinksPass rows values = rows ++ values := by
  induction values with
  | nil =>
    intro rows _ _
    simp [insertLinksPass]
  | cons v rest ih =>
    intro rows hnotin hnd
    have hvmem : v ∉ rows := hnotin v (List.mem_cons_self v rest)
    have hstep : insertLinksPass rows (v :: rest) = insertLinksPass (rows ++ [v]) rest := by
      simp [insertLinksPass, hvmem]
    rw [hstep, ih (rows ++ [v]) ?_ hnd.of_cons]
    · simp
    · intro w hw
      simp only [List.mem_append, List.mem_singleton]
      rintro (hmem | hveq)
      · exact hnotin w (List.mem_cons_of_mem v hw) hmem
      · exact (List.nodup_cons.mp hnd).1 (hveq ▸ hw)

theorem filter_fst_map_pair (s : Int) (ids : List Int) :
    ((ids.map (fun d => ((s, d) : JoinRow))).filter (fun r => r.1 == s)).map (·.2) = ids := by
  induction ids with
  | nil => rfl
  | cons a t ih => simp [ih]

theorem linksOf_append_pairs (rows : List JoinRow) (s : Int) (ids : List Int) :
    linksOf (rows ++ ids.map (fun d => (s, d))) s = linksOf rows s ++ ids := by
  simp only [linksOf, existingEntityIds, List.filter_append, List.map_append]
  rw [filter_fst_map_pair]

theorem linksOf_deleteStaleLinks (rows : List JoinRow) (s : Int) (stale : List Int) :
    linksOf (deleteStaleLinks rows stale) s
      = (linksOf rows s).filter (fun d => !stale.contains d) := by
  unfold linksOf existingEntityIds deleteStaleLinks
  rw [List.filter_filter, List.filter_map, List.filter_filter]
  congr 1
  apply List.filter_congr
  intro r _
  simp [Function.comp, Bool.and_comm]

theorem linksOf_addMultipleCompositionJoin (rows : List JoinRow) (s : Int)
    (refIds : List Int) (hE : (linksOf rows s).Nodup) (hR : refIds.Nodup) :
    linksOf (addMultipleCompositionJoin rows s (some refIds)) s
      = (linksOf rows s).filter (fun d => refIds.contains d)
        ++ refIds.filter (fun d => !(linksOf rows s).contains d) := by
  have hstale := reconcileLinks_stale s refIds (existingEntityIds rows s) [] hE
  have hvalues := reconcileLinks_values s refIds (existingEntityIds rows s) [] hE hR
  rcases hrec : reconcileLinks (existingEntityIds rows s) s refIds [] with ⟨stale, values⟩
  rw [hrec] at hstale hvalues
  simp only at hstale hvalues
  rw [List.nil_append] at hvalues
  have hins : insertLinksPass rows values = rows ++ values := by
    apply insertLinksPass_eq_append
    · intro v hv
      rw [hvalues] at hv
      rcases List.mem_map.mp hv with ⟨d, hd, rfl⟩
      rw [List.mem_filter] at hd
      intro hcontra
      have : d ∈ existingEntityIds rows s := (mem_existingEntityIds rows s d).mpr hcontra
      simp [intList_contains_eq, this] at hd
    · rw [hvalues]
      apply List.Nodup.map
      · intro a b hab
        simpa using hab
      · exact hR.filter _
  have hlinks1 : linksOf (insertLinksPass rows values) s
      = linksOf rows s ++ refIds.filter (fun d => !(linksOf rows s).contains d) := by
    rw [hins, hvalues]
    exact linksOf_append_pairs rows s _
  simp only [addMultipleCompositionJoin, hrec]
  by_cases hpos : stale.length > 0
  · rw [if_pos hpos, linksOf_deleteStaleLinks, hlinks1, List.filter_append]
    congr 1
    · apply List.filter_congr
      intro d hd
      by_cases hdr : d ∈ refIds
      · have hnstale : d ∉ stale := by
          rw [hstale]
          simp only [List.mem_filter]
          rintro ⟨-, hcon⟩
          simp [intList_contains_eq, hdr] at hcon
        simp [intList_contains_eq, hnstale, hdr]
      · have hinstale : d ∈ stale := by
          rw [hstale, List.mem_filter]
          exact ⟨hd, by simp [intList_contains_eq, hdr]⟩
        simp [intList_contains_eq, hinstale, hdr]
    · apply List.filter_eq_self.mpr
      intro d hd
      rw [List.mem_filter] at hd
      have hdE : d ∉ linksOf rows s := by
        have := hd.2
        simp [intList_contains_eq] at this
        exact this
      have hnstale : d ∉ stale := by
        rw [hstale, List.mem_filter]
        rintro ⟨hmem, -⟩
        exact hdE hmem
      simp [intList_contains_eq, hnstale]
  · rw [if_neg hpos, hlinks1]
    have hstale_nil : stale = [] := by
      cases stale with
      | nil => rfl
      | cons a t => simp at hpos
    have hall : ∀ d ∈ linksOf rows s, refIds.contains d = true := by
      intro d hd
      by_contra hcon
      have hmem : d ∈ stale := by
        rw [hstale, List.mem_filter]
        refine ⟨hd, ?_⟩
        simp only [Bool.not_eq_true, intList_contains_eq, decide_eq_false_iff_not] at hcon
        simp [intList_contains_eq, hcon]
      rw [hstale_nil] at hmem
      exact absurd hmem (List.not_mem_nil d)
    congr 1
    exact (List.filter_eq_self.mpr hall).symm

end RepoPattern

namespace RepoPattern

/-! ## Claim theorems -/

/-- C5: for a Multiple Composition relationship, `add` reconciles the
join table for the added source: starting from duplicate-free referenced
ids and duplicate-free existing links, the links recorded for that source
afterwards are exactly the currently referenced ids — no duplicate and no
stale join row.  (Applied three times this yields the claim's scenario:
adding the same composed list twice, then removing one element and
re-adding, leaves exactly the remaining elements linked.) -/
theorem c5_multiple_composition_reconciliation (rows : List JoinRow) (s : Int)
    (refIds : List Int) (h1 : refIds.Nodup) (h2 : (linksOf rows s).Nodup) :
    (linksOf (addMultipleCompositionJoin rows s (some refIds)) s).Nodup ∧
      ∀ d, d ∈ linksOf (addMultipleCompositionJoin rows s (some refIds)) s ↔ d ∈ refIds := by
  rw [linksOf_addMultipleCompositionJoin rows s refIds h2 h1]
  constructor
  · apply List.Nodup.append (h2.filter _) (h1.filter _)
    intro d hd1 hd2
    rw [List.mem_filter] at hd1 hd2
    have := hd2.2
    simp [intList_contains_eq, hd1.1] at this
  · intro d
    simp only [List.mem_append, List.mem_filter, intList_contains_eq]
    constructor
    · rintro (⟨-, hdr⟩ | ⟨hdr, -⟩)
      · simpa using hdr
      · exact hdr
    · intro hdr
      by_cases hdE : d ∈ linksOf rows s
      · exact Or.inl ⟨hdE, by simp [hdr]⟩
      · exact Or.inr ⟨hdr, by simp [hdE]⟩

/-- The claim's scenario, after the first two adds: source 1 adds the
composed list [10, 20] twice, starting from an empty join table. -/
def mcScenarioTwice : List JoinRow :=
  addMultipleCompositionJoin (addMultipleCompositionJoin [] 1 (some [10, 20])) 1
    (some [10, 20])

/-- The claim's scenario, final state: source 1 then re-adds only [10]. -/
def mcScenarioFinal : List JoinRow :=
  addMultipleCompositionJoin mcScenarioTwice 1 (some [10])

/-- C5 (witness): in the concrete scenario the remaining element 10 is
linked, 20 is not, there is no duplicate, and the final join table is
exactly `[(1, 10)]`. -/
theorem c5_multiple_composition_reconciliation_witness :
    ((linksOf mcScenarioFinal 1).Nodup ∧
        (10 ∈ linksOf mcScenarioFinal 1 ↔ (10 : Int) ∈ ([10] : List Int)) ∧
        (20 ∈ linksOf mcScenarioFinal 1 ↔ (20 : Int) ∈ ([10] : List Int))) ∧
      mcScenarioFinal = [(1, 10)] :=
  ⟨⟨(c5_multiple_composition_reconciliation mcScenarioTwice 1 [10] (by decide)
        (by decide)).1,
    (c5_multiple_composition_reconciliation mcScenarioTwice 1 [10] (by decide)
        (by decide)).2 10,
    (c5_multiple_composition_reconciliation mcScenarioTwice 1 [10] (by decide)
        (by decide)).2 20⟩,
   by decide⟩

/-- If the filtered relationship list contains an Extension whose source
is another class, the query-building loop of `_build_get_query` raises:
no other branch leaves the loop early, so the raise is always reached. -/
theorem buildGetQueryJoins_error (className : String) (l : List Rel) (r : Rel)
    (hmem : r ∈ l) (hkind : r.kind = RelKind.extension)
    (hsrc : relIsSource r className = false) :
    buildGetQueryJoins className l = .error () := by
  induction l with
  | nil => cases hmem
  | cons a rest ih =>
    rcases List.mem_cons.mp hmem with rfl | hmem2
    · simp [buildGetQueryJoins, hsrc, hkind]
    · by_cases ha : relIsSource a className = true
      · have hrec := ih hmem2
        simp [buildGetQueryJoins, ha, hrec]
      · by_cases hak : a.kind = RelKind.extension
        · simp [buildGetQueryJoins, ha, hak]
        · have hrec := ih hmem2
          simp [buildGetQueryJoins, ha, hak, hrec]

/-- C2 (counterexample): with the mapper holding the Extension
`extendingentity → author` and a committed PLAIN author row with id 1
(no extendingentity row at all), `get(Author, 1)` still raises
`EntityNotFoundError`, although the claim requires it to return the
entity. -/
theorem c2_extension_get_counterexample :
    pypikaGetOk [⟨RelKind.extension, "extendingentity", "author"⟩]
        [("author", [1])] "author" 1 = .error () ∧
      (tableIds [("author", [1])] "author").contains 1 = true ∧
      tableIds [("author", [1])] "extendingentity" = [] :=
  ⟨rfl, rfl, rfl⟩

/-- C2 (amended): whenever the mapper contains an Extension relationship
whose destination is the queried model (and whose source is a different
class), `get` raises `EntityNotFoundError` for EVERY id — the raise is
decided by the mapper alone in `_build_get_query`, before the database is
consulted, so it hits ids that exist only as the extending source type
AND ids committed as plain destination records alike. -/
theorem c2_extension_get_always_raises (mapper : List Rel) (db : Database)
    (className : String) (id : Int) (r : Rel)
    (hmem : r ∈ mapper) (hkind : r.kind = RelKind.extension)
    (hdest : r.destinationName = className) (hsrc : className ≠ r.sourceName) :
    pypikaGetOk mapper db className id = .error () := by
  have hrel : r ∈ getRelationships mapper className := by
    rw [getRelationships, List.mem_filter]
    refine ⟨hmem, ?_⟩
    simp [hdest]
  have hsrc2 : relIsSource r className = false := by
    simp [relIsSource, hsrc]
  rw [pypikaGetOk, buildGetQueryJoins_error className _ r hrel hkind hsrc2]

/-- C2 (witness): the amended theorem applied to the counterexample
state: a committed plain author with id 1 cannot be retrieved. -/
theorem c2_extension_get_always_raises_witness :
    pypikaGetOk [⟨RelKind.extension, "extendingentity", "author"⟩]
        [("author", [1])] "author" 1 = .error () :=
  c2_extension_get_always_raises
    [⟨RelKind.extension, "extendingentity", "author"⟩] [("author", [1])] "author" 1
    ⟨RelKind.extension, "extendingentity", "author"⟩
    (List.mem_singleton.mpr rfl) rfl rfl (by decide)

/-- C1 (counterexample): on the relational backend the staged entity IS
visible to the repository's own `get` before `commit`: the `SELECT` runs
on the same SQLite connection as the uncommitted `INSERT`.  The
committed database file still lacks the row, and no committed record
with that id exists, so the claim's "get raises EntityNotFoundError"
fails. -/
theorem c1_staging_isolation_counterexample :
    pypikaRepoGet (pypikaAddPlain ⟨[], [("book", [])], [("book", [])]⟩ "book" 1)
        "book" 1 = .ok () ∧
      (pypikaAddPlain ⟨[], [("book", [])], [("book", [])]⟩ "book" 1).committedDb
        = [("book", [])] :=
  ⟨rfl, rfl⟩

/-- C1 (amended): staging isolation holds for the in-memory and
document-store backends — `add` touches only the staging structures, so
`get` and `all` keep reading exactly the previously committed state —
and for the relational backend `add` leaves the committed database file
unchanged (a separate connection sees nothing), but the repository's own
`get`/`all` share the uncommitted connection and do see the staged row. -/
theorem c1_staging_isolation_amended :
    (∀ (repo : FakeRepo) (className : String) (e : FEntity),
      (fakeAdd repo className e).entities = repo.entities) ∧
    (∀ (repo : FakeRepo) (className : String) (e : FEntity) (t : String) (i : Int),
      fakeGet (fakeAdd repo className e) t i = fakeGet repo t i) ∧
    (∀ (repo : FakeRepo) (className : String) (e : FEntity) (t : String),
      fakeAll (fakeAdd repo className e) t = fakeAll repo t) ∧
    (∀ (repo : TinyRepo) (e : TEntity), (tinyAdd repo e).db = repo.db) ∧
    (∀ (repo : TinyRepo) (e : TEntity) (t : String) (i : Int),
      tinyGet (tinyAdd repo e) t i = tinyGet repo t i) ∧
    (∀ (repo : TinyRepo) (e : TEntity) (t : String),
      tinyAll (tinyAdd repo e) t = tinyAll repo t) ∧
    (∀ (st : PypikaRepo) (className : String) (i : Int),
      (pypikaAddPlain st className i).committedDb = st.committedDb) :=
  ⟨fun _ _ _ => rfl, fun _ _ _ _ _ => rfl, fun _ _ _ _ => rfl, fun _ _ => rfl,
   fun _ _ _ _ => rfl, fun _ _ _ => rfl, fun _ _ _ => rfl⟩

/-- C9: the stale-link deletion of `_add_multiple_composition` filters
join-table rows only by the destination-id column, so after `add` no row
whose destination id is stale survives — including rows that linked
OTHER source entities to those destinations. -/
theorem c9_stale_delete_ignores_source_column (rows : List JoinRow) (entityId : Int)
    (refIds : List Int) (s d : Int)
    (hd : d ∈ staleIdsOf rows entityId refIds) :
    (s, d) ∉ addMultipleCompositionJoin rows entityId (some refIds) := by
  unfold staleIdsOf at hd
  unfold addMultipleCompositionJoin
  rcases hrec : reconcileLinks (existingEntityIds rows entityId) entityId refIds [] with
    ⟨stale, values⟩
  simp only [hrec] at hd ⊢
  have hpos : stale.length > 0 := List.length_pos.mpr (List.ne_nil_of_mem hd)
  simp only [hpos, if_pos]
  intro hmem
  rw [deleteStaleLinks, List.mem_filter] at hmem
  have := hmem.2
  simp only [Bool.not_eq_true'] at this
  simp only [List.contains, List.elem_eq_mem, decide_eq_false_iff_not] at this
  exact this hd

/-- C9 (witness): source 1 re-adds an empty list while `(1, 10)` and
`(2, 10)` are linked; destination 10 becomes stale and BOTH rows are
deleted, including source 2's row. -/
theorem c9_stale_delete_ignores_source_column_witness :
    (2, 10) ∉ addMultipleCompositionJoin [(1, 10), (2, 10)] 1 (some []) ∧
      ((2, 10) : JoinRow) ∈ [((1, 10) : JoinRow), (2, 10)] :=
  ⟨c9_stale_delete_ignores_source_column [(1, 10), (2, 10)] 1 [] 2 10 (by decide),
   by decide⟩

/-- C7 (counterexample): the claim states that for a Multiple Composition
relationship an unsupplied `source_id` resolves to `<destination_type>_id`;
with destination type `book` the code resolves it to `"id_"`, not
`"book_id"`. -/
theorem c7_multiple_composition_source_id_counterexample :
    multipleCompositionSourceId none = "id_" ∧
      ¬ multipleCompositionSourceId none = "book" ++ "_id" := by
  constructor
  · rfl
  · intro h
    simp [multipleCompositionSourceId] at h

/-- C7 (amended): for Single Composition, an unsupplied `source_id`
defaults to `<destination_type>_id`, `destination_id` to `id_` and
`source_attribute` to `<destination_type>`; for Multiple Composition,
both `source_id` and `destination_id` default to `id_` and
`source_attribute` to `<destination_type>s`. -/
theorem c7_relationship_defaults (destName : String) :
    compositionSourceId destName none = destName ++ "_id" ∧
    compositionDestinationId none = "id_" ∧
    compositionSourceAttribute destName none = destName ∧
    multipleCompositionSourceId none = "id_" ∧
    multipleCompositionDestinationId none = "id_" ∧
    multipleCompositionSourceAttribute destName none = destName ++ "s" :=
  ⟨rfl, rfl, rfl, rfl, rfl, rfl⟩

/-- C6: constructing an Extension relationship with a supplied
`source_id` or `destination_id` different from the identity field `id_`
fails validation, while leaving them unsupplied (or supplying exactly
`id_`) succeeds and resolves both fields to `id_`. -/
theorem c6_extension_id_validation :
    (∀ s dId, s ≠ "id_" → (entityExtensionMake (some s) dId).isOk = false) ∧
    (∀ sId d, d ≠ "id_" → (entityExtensionMake sId (some d)).isOk = false) ∧
    (∀ sId dId, (sId = none ∨ sId = some "id_") → (dId = none ∨ dId = some "id_") →
      entityExtensionMake sId dId = .ok ("id_", "id_")) := by
  refine ⟨?_, ?_, ?_⟩
  · intro s dId hs
    simp [entityExtensionMake, extensionValidateSourceId, hs, Except.isOk, Except.toBool]
  · intro sId d hd
    rcases sId with _ | s
    · simp [entityExtensionMake, extensionValidateSourceId,
        extensionValidateDestinationId, hd, Except.isOk, Except.toBool]
    · by_cases hs : s = "id_"
      · subst hs
        simp [entityExtensionMake, extensionValidateSourceId,
          extensionValidateDestinationId, hd, Except.isOk, Except.toBool]
      · simp [entityExtensionMake, extensionValidateSourceId, hs, Except.isOk, Except.toBool]
  · intro sId dId hsId hdId
    rcases hsId with h | h <;> rcases hdId with h' | h' <;> subst h <;> subst h' <;> rfl

/-- C6 (witness): instantiating the validation theorem — supplying the
non-identity key `"author_id"` fails, supplying nothing succeeds with
both keys resolved to `id_`. -/
theorem c6_extension_id_validation_witness :
    (entityExtensionMake (some "author_id") none).isOk = false ∧
      entityExtensionMake none none = .ok ("id_", "id_") :=
  ⟨c6_extension_id_validation.1 "author_id" none (by decide),
   c6_extension_id_validation.2.2 none none (Or.inl rfl) (Or.inl rfl)⟩

/-- C10: `_delete_select_column_attribute` only scans indices `0` to
`len(columns) - 2`, so whenever the sole column matching the requested
table and attribute sits in the LAST position, the returned projection
still contains that column — in fact the list is returned unchanged. -/
theorem c10_delete_select_column_skips_last (table attrName : String)
    (cs : List Column) (c : Column)
    (hlast : cs.getLast? = some c)
    (hmatch : matchesColumn table attrName c = true)
    (hothers : ∀ c' ∈ cs.dropLast, matchesColumn table attrName c' = false) :
    deleteSelectColumnAttribute table attrName cs = cs ∧
      c ∈ deleteSelectColumnAttribute table attrName cs := by
  have h := deleteSelectColumnAttribute_of_no_match_before_last table attrName cs hothers
  refine ⟨h, ?_⟩
  rw [h]
  obtain ⟨hne, hc⟩ := List.mem_getLast?_eq_getLast (l := cs) (x := c) hlast
  rw [hc]
  exact List.getLast_mem hne

/-- C10 (witness): the projection built for `composingentity` keeps the
mapped `book` column when it is the last select column. -/
theorem c10_delete_select_column_skips_last_witness :
    deleteSelectColumnAttribute "composingentity" "book"
        [⟨"composingentity", "id_"⟩, ⟨"composingentity", "name"⟩,
          ⟨"composingentity", "book"⟩] =
      [⟨"composingentity", "id_"⟩, ⟨"composingentity", "name"⟩,
        ⟨"composingentity", "book"⟩] ∧
      (⟨"composingentity", "book"⟩ : Column) ∈
        deleteSelectColumnAttribute "composingentity" "book"
          [⟨"composingentity", "id_"⟩, ⟨"composingentity", "name"⟩,
            ⟨"composingentity", "book"⟩] :=
  c10_delete_select_column_skips_last "composingentity" "book" _ _
    (by rfl) (by decide) (by decide)

/-- C3 (counterexample): on the in-memory backend, with a committed book
id 1, the entity (book, 2) is not retrievable — `get` raises — yet
`delete` succeeds silently: `pop(id, None)` never raises once the type
key exists. -/
theorem c3_delete_missing_counterexample :
    (fakeGet ⟨[("book", [(1, 0)])], []⟩ "book" 2).isOk = false ∧
      (fakeDelete ⟨[("book", [(1, 0)])], []⟩ "book" 2).isOk = true :=
  ⟨rfl, rfl⟩

/-- C3 (amended): the relational and document-store backends verify
existence through `get` first, so deleting a non-retrievable entity
always raises `EntityNotFoundError`; the in-memory backend instead
raises exactly when its staging map (after copy-on-first-write) has no
key for the entity's type — if the type key exists, deleting a missing
id silently does nothing. -/
theorem c3_delete_missing_amended :
    (∀ (st : PypikaRepo) (className : String) (i : Int),
      pypikaRepoGet st className i = .error () →
        pypikaDelete st className i = .error ()) ∧
    (∀ (repo : TinyRepo) (e : TEntity),
      tinyGet repo e.model e.id_ = .error () → tinyDelete repo e = .error ()) ∧
    (∀ (repo : FakeRepo) (className : String) (i : Int),
      fakeDelete repo className i = .error () ↔
        dictFind (if repo.newEntities == [] then repo.entities else repo.newEntities)
          className = none) := by
  refine ⟨?_, ?_, ?_⟩
  · intro st className i h
    unfold pypikaDelete
    rw [h]
  · intro repo e h
    unfold tinyDelete
    rw [h]
  · intro repo className i
    unfold fakeDelete
    dsimp only
    rcases hfind : dictFind
        (if repo.newEntities == [] then repo.entities else repo.newEntities)
        className with _ | inner
    · simp
    · simp

/-- C3 (witness): deleting from empty relational and document stores
raises, and on the empty in-memory store the raise coincides with the
missing type key. -/
theorem c3_delete_missing_witness :
    pypikaDelete ⟨[], [], []⟩ "book" 1 = .error () ∧
      tinyDelete ⟨[], [], []⟩ ⟨"book", 1, 0⟩ = .error () ∧
      fakeDelete ⟨[], []⟩ "book" 1 = .error () :=
  ⟨c3_delete_missing_amended.1 ⟨[], [], []⟩ "book" 1 rfl,
   c3_delete_missing_amended.2.1 ⟨[], [], []⟩ ⟨"book", 1, 0⟩ rfl,
   (c3_delete_missing_amended.2.2 ⟨[], []⟩ "book" 1).mpr rfl⟩

/-- C4 (counterexample): committing book id 2 then book id 1 on the
document store leaves the collection in insertion order, and `all`
returns `[id 2, id 1]` — not sorted ascending by id.  Separately, the
in-memory backend returns `ok []` instead of raising when the type key
exists with an empty inner dict. -/
theorem c4_all_sorted_counterexample :
    tinyCommit ⟨[], [⟨"book", 2, 0⟩, ⟨"book", 1, 0⟩], []⟩
        = ⟨[⟨"book", 2, 0⟩, ⟨"book", 1, 0⟩], [], []⟩ ∧
      tinyAll ⟨[⟨"book", 2, 0⟩, ⟨"book", 1, 0⟩], [], []⟩ "book"
        = .ok [⟨"book", 2, 0⟩, ⟨"book", 1, 0⟩] ∧
      ¬ List.Sorted (fun a b : TEntity => a.id_ ≤ b.id_)
          [⟨"book", 2, 0⟩, ⟨"book", 1, 0⟩] ∧
      fakeAll ⟨[("book", [])], []⟩ "book" = .ok [] :=
  ⟨rfl, rfl, by decide, rfl⟩

/-- C4 (amended): `all` raises `EntityNotFoundError` exactly when it
finds nothing — except the in-memory backend, which returns the empty
list when the type key exists with an empty inner dict — and only the
in-memory backend sorts by id (returning a sorted permutation of the
committed entities of the type); the relational and document-store
backends return rows in storage (insertion) order. -/
theorem c4_all_amended :
    (∀ (repo : FakeRepo) (t : String) (inner l : List FEntity),
      dictFind repo.entities t = some inner → fakeAll repo t = .ok l →
        List.Sorted (fun a b : FEntity => a.1 ≤ b.1) l ∧ l.Perm inner) ∧
    (∀ (repo : FakeRepo) (t : String),
      fakeAll repo t = .error () ↔ dictFind repo.entities t = none) ∧
    (∀ (repo : TinyRepo) (t : String),
      (tinyAll repo t = .error () ↔ committedOf repo t = []) ∧
      ∀ l, tinyAll repo t = .ok l → l = committedOf repo t) ∧
    (∀ (st : PypikaRepo) (t : String),
      (pypikaAll st t = .error () ↔ tableIds st.currentDb t = []) ∧
      ∀ l, pypikaAll st t = .ok l → l = tableIds st.currentDb t) := by
  refine ⟨?_, ?_, ?_, ?_⟩
  · intro repo t inner l hfind hall
    unfold fakeAll at hall
    rw [hfind] at hall
    simp only at hall
    injection hall with hall
    subst hall
    constructor
    · haveI : IsTotal FEntity (fun a b => a.1 ≤ b.1) := ⟨fun a b => le_total a.1 b.1⟩
      haveI : IsTrans FEntity (fun a b => a.1 ≤ b.1) :=
        ⟨fun a b c hab hbc => le_trans hab hbc⟩
      exact List.sorted_insertionSort _ _
    · exact List.perm_insertionSort _ _
  · intro repo t
    unfold fakeAll
    rcases hfind : dictFind repo.entities t with _ | inner
    · simp
    · simp
  · intro repo t
    constructor
    · unfold tinyAll
      dsimp only
      rcases hc : committedOf repo t with _ | ⟨a, rest⟩
      · simp
      · simp
    · intro l hl
      unfold tinyAll at hl
      dsimp only at hl
      rcases hc : committedOf repo t with _ | ⟨a, rest⟩
      · rw [hc] at hl
        simp at hl
      · rw [hc] at hl
        simp at hl
        exact hl.symm
  · intro st t
    constructor
    · unfold pypikaAll
      dsimp only
      rcases hc : tableIds st.currentDb t with _ | ⟨a, rest⟩
      · simp
      · simp
    · intro l hl
      unfold pypikaAll at hl
      dsimp only at hl
      rcases hc : tableIds st.currentDb t with _ | ⟨a, rest⟩
      · rw [hc] at hl
        simp at hl
      · rw [hc] at hl
        simp at hl
        exact hl.symm

/-- C4 (witness): the amended theorem at concrete states — the in-memory
backend sorts `[(2,0), (1,0)]` into `[(1,0), (2,0)]`, the empty in-memory
store raises exactly for the missing key, and the document-store and
relational backends return their storage order. -/
theorem c4_all_amended_witness :
    (List.Sorted (fun a b : FEntity => a.1 ≤ b.1) [(1, 0), (2, 0)] ∧
        List.Perm [((1 : Int), (0 : Nat)), (2, 0)] [(2, 0), (1, 0)]) ∧
      (fakeAll ⟨[], []⟩ "book" = .error () ↔ dictFind ([] : FakeDB) "book" = none) ∧
      ([⟨"book", 1, 0⟩] = committedOf ⟨[⟨"book", 1, 0⟩], [], []⟩ "book") ∧
      ([1] = tableIds [("book", [1])] "book") :=
  ⟨c4_all_amended.1 ⟨[("book", [(2, 0), (1, 0)])], []⟩ "book" [(2, 0), (1, 0)]
      [(1, 0), (2, 0)] rfl rfl,
   c4_all_amended.2.1 ⟨[], []⟩ "book",
   (c4_all_amended.2.2.1 ⟨[⟨"book", 1, 0⟩], [], []⟩ "book").2 [⟨"book", 1, 0⟩] rfl,
   (c4_all_amended.2.2.2 ⟨[], [], [("book", [1])]⟩ "book").2 [1] rfl⟩

/-- The running maximum of Python's `max` over entities: the fold keeps
the earliest entity with the greatest id. -/
theorem pyMaxFold_spec (t : List TEntity) :
    ∀ h : TEntity,
      (t.foldl (fun best x => if x.id_ > best.id_ then x else best) h) ∈ h :: t ∧
      h.id_ ≤ (t.foldl (fun best x => if x.id_ > best.id_ then x else best) h).id_ ∧
      ∀ x ∈ t, x.id_ ≤ (t.foldl (fun best x => if x.id_ > best.id_ then x else best) h).id_ := by
  induction t with
  | nil =>
    intro h
    exact ⟨List.mem_singleton.mpr rfl, le_refl _, by intro x hx; cases hx⟩
  | cons a rest ih =>
    intro h
    simp only [List.foldl_cons]
    rcases ih (if a.id_ > h.id_ then a else h) with ⟨hmem, hle, hall⟩
    have hstep : h.id_ ≤ (if a.id_ > h.id_ then a else h).id_ := by
      by_cases hcond : a.id_ > h.id_
      · rw [if_pos hcond]
        omega
      · rw [if_neg hcond]
    have hstepa : a.id_ ≤ (if a.id_ > h.id_ then a else h).id_ := by
      by_cases hcond : a.id_ > h.id_
      · rw [if_pos hcond]
      · rw [if_neg hcond]
        omega
    refine ⟨?_, le_trans hstep hle, ?_⟩
    · rcases List.mem_cons.mp hmem with heq | hmem2
      · rw [heq]
        by_cases hcond : a.id_ > h.id_
        · simp [hcond]
        · simp [hcond]
      · exact List.mem_cons_of_mem _ (List.mem_cons_of_mem _ hmem2)
    · intro x hx
      rcases List.mem_cons.mp hx with rfl | hx2
      · exact le_trans hstepa hle
      · exact hall x hx2

theorem pyMax_spec (l : List TEntity) (e : TEntity) (h : pyMax l = some e) :
    e ∈ l ∧ ∀ x ∈ l, x.id_ ≤ e.id_ := by
  cases l with
  | nil => cases h
  | cons a t =>
    simp only [pyMax] at h
    injection h with h
    subst h
    rcases pyMaxFold_spec t a with ⟨hmem, hle, hall⟩
    refine ⟨hmem, ?_⟩
    intro x hx
    rcases List.mem_cons.mp hx with rfl | hx2
    · exact hle
    · exact hall x hx2

theorem pyMax_eq_none_iff (l : List TEntity) : pyMax l = none ↔ l = [] := by
  cases l <;> simp [pyMax]

theorem superLast_error_iff (repo : TinyRepo) (model : String) :
    superLast repo model = .error () ↔ committedOf repo model = [] := by
  unfold superLast tinyAll
  dsimp only
  rcases hc : committedOf repo model with _ | ⟨a, rest⟩
  · simp
  · simp [pyMax]

theorem superLast_ok_spec (repo : TinyRepo) (model : String) (e : TEntity)
    (h : superLast repo model = .ok e) :
    e ∈ committedOf repo model ∧ ∀ x ∈ committedOf repo model, x.id_ ≤ e.id_ := by
  have hne : committedOf repo model ≠ [] := by
    intro hnil
    rw [(superLast_error_iff repo model).mpr hnil] at h
    cases h
  rcases hp : pyMax (committedOf repo model) with _ | m
  · exact absurd ((pyMax_eq_none_iff _).mp hp) hne
  · have hem : superLast repo model = .ok m := by
      unfold superLast tinyAll
      dsimp only
      rcases hc : committedOf repo model with _ | ⟨a, rest⟩
      · exact absurd hc hne
      · rw [hc] at hp
        simp [hp]
    rw [hem] at h
    injection h with h
    subst h
    exact pyMax_spec _ m hp

/-- C8: `TinyDBRepository.last`.  With `committed_only` true it returns
a committed entity of the type with maximal id (raising exactly when the
type has no committed entity); with `committed_only` false it returns a
maximal-id element of the union of the committed entities of the type
and ALL staged entities (the staged fallback is not filtered by type),
raising exactly when both sets are empty. -/
theorem c8_tinydb_last (repo : TinyRepo) (model : String) :
    (∀ e, tinyLast repo model true = .ok e →
        e ∈ committedOf repo model ∧ ∀ x ∈ committedOf repo model, x.id_ ≤ e.id_) ∧
    (tinyLast repo model true = .error () ↔ committedOf repo model = []) ∧
    (∀ e, tinyLast repo model false = .ok e →
        e ∈ committedOf repo model ++ repo.stagedAdd ∧
          ∀ x ∈ committedOf repo model ++ repo.stagedAdd, x.id_ ≤ e.id_) ∧
    (tinyLast repo model false = .error () ↔
        committedOf repo model = [] ∧ repo.stagedAdd = []) := by
  rcases hSL : superLast repo model with ⟨⟨⟩⟩ | eC
  · have hcom : committedOf repo model = [] := (superLast_error_iff repo model).mp hSL
    refine ⟨?_, ?_, ?_, ?_⟩
    · intro e he
      unfold tinyLast at he
      rw [hSL] at he
      simp at he
    · unfold tinyLast
      rw [hSL]
      simp [hcom]
    · intro e he
      unfold tinyLast at he
      rw [hSL] at he
      simp only [Bool.not_false, if_pos] at he
      rcases hp : pyMax repo.stagedAdd with _ | m
      · rw [hp] at he
        simp at he
      · rw [hp] at he
        simp only [Except.ok.injEq] at he
        subst he
        rcases pyMax_spec repo.stagedAdd m hp with ⟨hmem, hall⟩
        rw [hcom]
        refine ⟨by simpa using hmem, ?_⟩
        intro x hx
        simp only [List.nil_append] at hx
        exact hall x hx
    · unfold tinyLast
      rw [hSL]
      simp only [Bool.not_false, if_pos]
      rcases hp : pyMax repo.stagedAdd with _ | m
      · have hstage : repo.stagedAdd = [] := (pyMax_eq_none_iff _).mp hp
        simp [hcom, hstage]
      · have hstage : repo.stagedAdd ≠ [] := by
          intro hnil
          rw [hnil] at hp
          cases hp
        simp [hcom, hstage]
  · have hspec := superLast_ok_spec repo model eC hSL
    have hne : committedOf repo model ≠ [] := by
      intro hnil
      rw [(superLast_error_iff repo model).mpr hnil] at hSL
      cases hSL
    refine ⟨?_, ?_, ?_, ?_⟩
    · intro e he
      unfold tinyLast at he
      rw [hSL] at he
      simp only [if_pos] at he
      injection he with he
      subst he
      exact hspec
    · unfold tinyLast
      rw [hSL]
      simp [hne]
    · intro e he
      unfold tinyLast at he
      rw [hSL] at he
      simp only [Bool.false_eq_true, if_false] at he
      rcases hp : pyMax repo.stagedAdd with _ | m
      · have hstage : repo.stagedAdd = [] := (pyMax_eq_none_iff _).mp hp
        rw [hp] at he
        simp only [Except.ok.injEq] at he
        subst he
        rw [hstage]
        refine ⟨by simpa using hspec.1, ?_⟩
        intro x hx
        simp only [List.append_nil] at hx
        exact hspec.2 x hx
      · rw [hp] at he
        simp only [Except.ok.injEq] at he
        subst he
        rcases pyMax_spec repo.stagedAdd m hp with ⟨hmem, hall⟩
        by_cases hcond : m.id_ > eC.id_
        · rw [if_pos hcond]
          refine ⟨List.mem_append_right _ hmem, ?_⟩
          intro x hx
          rcases List.mem_append.mp hx with hx1 | hx2
          · have := hspec.2 x hx1
            omega
          · exact hall x hx2
        · rw [if_neg hcond]
          refine ⟨List.mem_append_left _ hspec.1, ?_⟩
          intro x hx
          rcases List.mem_append.mp hx with hx1 | hx2
          · exact hspec.2 x hx1
          · have := hall x hx2
            omega
    · unfold tinyLast
      rw [hSL]
      simp only [Bool.false_eq_true, if_false]
      rcases hp : pyMax repo.stagedAdd with _ | m
      · simp [hne]
      · by_cases hcond : m.id_ > eC.id_
        · simp [hcond, hne]
        · simp [hcond, hne]

/-- C8 (witness): a store with a committed book id 1 and a staged entity
with id 5 — `last` with `committed_only` true picks the committed book;
with `committed_only` false it picks the staged id 5. -/
theorem c8_tinydb_last_witness :
    (∀ e, tinyLast ⟨[⟨"book", 1, 0⟩], [⟨"genre", 5, 0⟩], []⟩ "book" true = .ok e →
        e ∈ committedOf ⟨[⟨"book", 1, 0⟩], [⟨"genre", 5, 0⟩], []⟩ "book" ∧
          ∀ x ∈ committedOf ⟨[⟨"book", 1, 0⟩], [⟨"genre", 5, 0⟩], []⟩ "book",
            x.id_ ≤ e.id_) ∧
      (∀ e, tinyLast ⟨[⟨"book", 1, 0⟩], [⟨"genre", 5, 0⟩], []⟩ "book" false = .ok e →
        e ∈ committedOf ⟨[⟨"book", 1, 0⟩], [⟨"genre", 5, 0⟩], []⟩ "book"
            ++ (⟨[⟨"book", 1, 0⟩], [⟨"genre", 5, 0⟩], []⟩ : TinyRepo).stagedAdd ∧
          ∀ x ∈ committedOf ⟨[⟨"book", 1, 0⟩], [⟨"genre", 5, 0⟩], []⟩ "book"
              ++ (⟨[⟨"book", 1, 0⟩], [⟨"genre", 5, 0⟩], []⟩ : TinyRepo).stagedAdd,
            x.id_ ≤ e.id_) ∧
      tinyLast ⟨[⟨"book", 1, 0⟩], [⟨"genre", 5, 0⟩], []⟩ "book" true = .ok ⟨"book", 1, 0⟩ ∧
      tinyLast ⟨[⟨"book", 1, 0⟩], [⟨"genre", 5, 0⟩], []⟩ "book" false = .ok ⟨"genre", 5, 0⟩ :=
  ⟨(c8_tinydb_last ⟨[⟨"book", 1, 0⟩], [⟨"genre", 5, 0⟩], []⟩ "book").1,
   (c8_tinydb_last ⟨[⟨"book", 1, 0⟩], [⟨"genre", 5, 0⟩], []⟩ "book").2.2.1,
   rfl, rfl⟩

end RepoPattern
